import Mathlib

/-!
Shallow embedding of the holy-cors proxy (src/config.rs, src/cors.rs,
src/proxy.rs) and proofs about its request pipeline.

Modelling conventions:
* Rust String / str values become Lean String.
* http::HeaderValue byte contents become List Nat (one Nat per byte,
  each < 256); HeaderValue.to_str and HeaderValue.from_str are modelled
  by hvalToStr and strToHVal below, following the http crate checks
  (visible ASCII plus tab for to_str; any byte except controls other
  than tab and except 127 for from_str).
* http::HeaderMap becomes an association list whose keys are the header
  names; the http crate stores names lowercased, and lookups here use
  exact key equality just as HeaderMap does after its normalisation.
  HeaderMap.insert replaces every value held under the name.
* Network effects (url::Url::parse, the hyper client call, the
  WebSocket connect) are supplied as oracle functions, so the pipeline
  itself stays a pure function of the request plus those oracles.
-/

namespace HolyCors

/-- str::starts_with, computed on the character list (structurally, so
concrete instances evaluate inside the kernel). -/
def strStartsWith (s pre : String) : Bool := pre.data.isPrefixOf s.data

/-- str-slicing that removes the first n characters. -/
def strDrop (s : String) (n : Nat) : String := String.mk (s.data.drop n)

/-- str::contains with a char pattern. -/
def strContainsChar (s : String) (c : Char) : Bool := s.data.contains c

/-- ASCII lowercasing of a string, character by character. -/
def strToLower (s : String) : String := String.mk (s.data.map Char.toLower)

/-- One header value: its raw bytes, as in http::HeaderValue. -/
abbrev HVal := List Nat

/-- Bytes of an ASCII string literal (each char is one byte here). -/
def asciiBytes (s : String) : HVal := s.data.map Char.toNat

/-- The http crate predicate used by HeaderValue.to_str: visible ASCII
(32..126) or tab. -/
def visibleAsciiByte (b : Nat) : Bool := b == 9 || (32 ≤ b && b < 127)

/-- Models http::HeaderValue.to_str: succeeds iff every byte is visible
ASCII or tab, yielding the corresponding character string. -/
def hvalToStr (v : HVal) : Option String :=
  if v.all visibleAsciiByte then some (String.mk (v.map Char.ofNat)) else none

/-- The http crate predicate used by HeaderValue.from_str, stated per
character: control characters other than tab, and delete (127), are
rejected; everything else (including all chars above 127, whose UTF-8
bytes all lie in the accepted obs-text range) is accepted. -/
def validHVChar (c : Char) : Bool := c.toNat == 9 || (32 ≤ c.toNat && c.toNat != 127)

/-- Models http::HeaderValue.from_str: succeeds iff every character is
acceptable, yielding the value bytes. (For the ASCII strings this
development evaluates it on, codepoints coincide with bytes.) -/
def strToHVal (s : String) : Option HVal :=
  if s.data.all validHVChar then some (s.data.map Char.toNat) else none

/-- Header collections, as in http::HeaderMap (keys already lowercase). -/
abbrev HeaderMap := List (String × HVal)

/-- Models HeaderMap.get: first value stored under the name. -/
def hmGet (hs : HeaderMap) (name : String) : Option HVal :=
  match hs.find? (fun p => p.1 == name) with
  | some p => some p.2
  | none => none

/-- Models HeaderMap.contains_key. -/
def hmContains (hs : HeaderMap) (name : String) : Bool :=
  (hmGet hs name).isSome

/-- Models HeaderMap.insert: drops every value under the name, then
stores the new one. -/
def hmInsert (hs : HeaderMap) (name : String) (v : HVal) : HeaderMap :=
  hs.filter (fun p => !(p.1 == name)) ++ [(name, v)]

/-- Models HeaderMap.remove: drops every value under the name. -/
def hmRemove (hs : HeaderMap) (name : String) : HeaderMap :=
  hs.filter (fun p => !(p.1 == name))

/-! ## config.rs -/

/-- DEFAULT_ORIGINS from src/config.rs. -/
def DEFAULT_ORIGINS : List String :=
  ["https://bugdays.com", "https://www.bugdays.com",
   "http://bugdays.com", "http://www.bugdays.com"]

/-- Config from src/config.rs (clap attributes are bootstrap-only). -/
structure Config where
  port : Nat
  allow_origins : List String
  allow_all : Bool
  verbose : Bool
  bind : String

/-- Config.allowed_origins: defaults plus configured extras. The Rust
code builds a HashSet; only membership is ever consulted, so a list
with list membership is an exact model. -/
def Config.allowed_origins (c : Config) : List String :=
  DEFAULT_ORIGINS ++ c.allow_origins

/-- Config.is_origin_allowed from src/config.rs. -/
def Config.is_origin_allowed (c : Config) (origin : String) : Bool :=
  if c.allow_all then true else (c.allowed_origins).contains origin

/-! ## cors.rs -/

/-- CORS_METHODS constant from src/cors.rs. -/
def CORS_METHODS : String := "GET, POST, PUT, PATCH, DELETE, HEAD, OPTIONS"

/-- CORS_MAX_AGE constant from src/cors.rs. -/
def CORS_MAX_AGE : String := "86400"

/-- An HTTP response as the handlers build it: status, headers, body.
Bodies built locally are strings; a relayed upstream body is carried
through unchanged as a string as well. -/
structure Resp where
  status : Nat
  headers : HeaderMap
  body : String
deriving DecidableEq

/-- error_response from src/cors.rs: JSON error body plus permissive
CORS annotations (the response builder appends each named header). -/
def error_response (status : Nat) (message : String) : Resp :=
  { status := status
  , headers :=
      [("content-type", asciiBytes "application/json"),
       ("access-control-allow-origin", asciiBytes "*"),
       ("access-control-allow-methods", asciiBytes CORS_METHODS)]
  , body := "\x7b\"error\": \"" ++ message ++ "\"\x7d" }

/-- success_response from src/cors.rs. -/
def success_response (message : String) : Resp :=
  { status := 200
  , headers :=
      [("content-type", asciiBytes "application/json"),
       ("access-control-allow-origin", asciiBytes "*")]
  , body := "\x7b\"message\": \"" ++ message ++ "\"\x7d" }

/-- check_origin from src/cors.rs. -/
def check_origin (headers : HeaderMap) (config : Config) : Except Resp String :=
  match hmGet headers "origin" with
  | none => .ok ""
  | some v =>
    match hvalToStr v with
    | none => .error (error_response 400 "Invalid Origin header")
    | some s =>
      if config.is_origin_allowed s then .ok s
      else .error (error_response 403
        ("Origin '" ++ s ++ "' is not allowed. Use --allow-origin to add it."))

/-- add_cors_headers from src/cors.rs. The origin insertion mirrors the
if-let on HeaderValue::from_str: an origin that is not a valid header
value is silently skipped. -/
def add_cors_headers (headers : HeaderMap) (origin : String)
    (request_headers : HeaderMap) : HeaderMap :=
  let h1 :=
    if origin ≠ "" then
      match strToHVal origin with
      | some v => hmInsert headers "access-control-allow-origin" v
      | none => headers
    else
      hmInsert headers "access-control-allow-origin" (asciiBytes "*")
  let h2 := hmInsert h1 "access-control-allow-methods" (asciiBytes CORS_METHODS)
  let h3 :=
    match hmGet request_headers "access-control-request-headers" with
    | some rv => hmInsert h2 "access-control-allow-headers" rv
    | none => hmInsert h2 "access-control-allow-headers" (asciiBytes "*")
  let h4 := hmInsert h3 "access-control-expose-headers" (asciiBytes "*")
  let h5 := hmInsert h4 "access-control-max-age" (asciiBytes CORS_MAX_AGE)
  hmInsert h5 "access-control-allow-credentials" (asciiBytes "true")

/-- is_preflight from src/cors.rs. -/
def is_preflight (method : String) (headers : HeaderMap) : Bool :=
  method == "OPTIONS" && hmContains headers "access-control-request-method"

/-- handle_preflight from src/cors.rs: a fresh 204 response annotated
with the CORS headers. -/
def handle_preflight (origin : String) (request_headers : HeaderMap) : Resp :=
  { status := 204
  , headers := add_cors_headers [] origin request_headers
  , body := "" }

/-! ## proxy.rs -/

/-- HOP_BY_HOP_HEADERS from src/proxy.rs. -/
def HOP_BY_HOP_HEADERS : List String :=
  ["connection", "keep-alive", "proxy-authenticate", "proxy-authorization",
   "te", "trailer", "transfer-encoding", "upgrade", "host"]

/-- SKIP_RESPONSE_HEADERS from src/proxy.rs. -/
def SKIP_RESPONSE_HEADERS : List String :=
  ["connection", "keep-alive", "transfer-encoding", "content-encoding",
   "content-length"]

/-- Value of an ASCII hexadecimal digit, as char::to_digit(16) sees it. -/
def hexDigitVal (c : Char) : Option Nat :=
  if 48 ≤ c.toNat ∧ c.toNat ≤ 57 then some (c.toNat - 48)
  else if 97 ≤ c.toNat ∧ c.toNat ≤ 102 then some (c.toNat - 87)
  else if 65 ≤ c.toNat ∧ c.toNat ≤ 70 then some (c.toNat - 55)
  else none

/-- Models u8::from_str_radix(hex, 16) on a two-character string, as the
decoder in src/proxy.rs calls it: two hex digits give the byte; a
leading plus sign is also accepted (the standard library strips an
optional plus before reading digits), so plus followed by one hex digit
gives that digit value. A minus sign is not stripped for unsigned
types, so it always fails, as does anything else. -/
def parseByte2 (a b : Char) : Option Nat :=
  match hexDigitVal a, hexDigitVal b with
  | some x, some y => some (16 * x + y)
  | _, _ => if a = '+' then hexDigitVal b else none

/-- Core of urlencoding_decode from src/proxy.rs, on character lists.
After a percent sign the iterator takes up to two characters; if they
parse as a byte the byte is pushed (Rust pushes byte-as-char, i.e. the
codepoint of the byte value), otherwise the percent sign and the taken
characters are pushed unchanged. -/
def decodeChars : List Char → List Char
  | [] => []
  | c :: rest =>
    if c = '%' then
      match rest with
      | a :: b :: rest2 =>
        match parseByte2 a b with
        | some n => Char.ofNat n :: decodeChars rest2
        | none => '%' :: a :: b :: decodeChars rest2
      | [a] => ['%', a]
      | [] => ['%']
    else c :: decodeChars rest

/-- urlencoding_decode from src/proxy.rs. -/
def urlencoding_decode (s : String) : String :=
  String.mk (decodeChars s.data)

/-- extract_target_url from src/proxy.rs, taking the request path and
query separately (the path and query of the hyper uri). The Rust call strip_prefix
with a char pattern removes exactly one leading slash. -/
def extract_target_url (path : String) (query : Option String) : Option String :=
  let p := if strStartsWith path "/" then strDrop path 1 else path
  if p = "" then none
  else
    let decoded := urlencoding_decode p
    let url :=
      match query with
      | some q => decoded ++ "?" ++ q
      | none => decoded
    if strStartsWith url "http://" || strStartsWith url "https://" then some url
    else if strContainsChar url '.' && !(strContainsChar url ' ') then
      some ("https://" ++ url)
    else none

/-- is_websocket_upgrade from src/proxy.rs: the upgrade header is
present, readable, and equal to websocket ignoring ASCII case. The
strings compared are readable header values, hence ASCII, so mapping
both through toLower models eq_ignore_ascii_case exactly. -/
def is_websocket_upgrade (headers : HeaderMap) : Bool :=
  match hmGet headers "upgrade" with
  | some v =>
    match hvalToStr v with
    | some s => strToLower s == "websocket"
    | none => false
  | none => false

/-- Models str::replacen(pat, sub, 1): replace the leftmost occurrence
of pat (if any) and leave the rest untouched. -/
def replaceFirst : List Char → List Char → List Char → List Char
  | [], _, _ => []
  | c :: rest, pat, sub =>
    if pat.isPrefixOf (c :: rest) then sub ++ (c :: rest).drop pat.length
    else c :: replaceFirst rest pat sub

/-- The scheme translation in handle_websocket from src/proxy.rs:
replacen("http://", "ws://", 1) then replacen("https://", "wss://", 1). -/
def wsTranslate (target : String) : String :=
  let s1 := replaceFirst target.data "http://".data "ws://".data
  String.mk (replaceFirst s1 "https://".data "wss://".data)

/-- Suffix of a character list after the last occurrence of c (the
whole list when c does not occur). -/
def afterLastChar (c : Char) (l : List Char) : List Char :=
  (l.reverse.takeWhile (fun x => !(x == c))).reverse

/-- Decimal value of a digit list. -/
def digitsToNat (l : List Char) : Nat :=
  l.foldl (fun acc c => 10 * acc + (c.toNat - 48)) 0

/-- Models host and port extraction of http::Uri (an external
dependency of forward_request) for absolute http(s) URLs: the
authority is the segment between the scheme separator and the first
slash, question mark or hash; userinfo before a commercial at is not
part of the host; an explicit colon-port suffix of decimal digits
(at most 65535) is kept exactly as written - http::Uri reports the
port only when it is spelled out, and does not drop default ports.
Returns none when no host or an invalid port is present (IPv6 bracket
hosts are outside the shapes this development evaluates). -/
def uriHostPort (s : String) : Option (String × Option Nat) :=
  let rest? : Option String :=
    if strStartsWith s "http://" then some (strDrop s 7)
    else if strStartsWith s "https://" then some (strDrop s 8)
    else none
  match rest? with
  | none => none
  | some r =>
    let auth := r.data.takeWhile (fun c => !(c == '/' || c == '?' || c == '#'))
    let hp := afterLastChar '@' auth
    if hp.contains ':' then
      let portCs := afterLastChar ':' hp
      let hostCs := hp.take (hp.length - portCs.length - 1)
      if hostCs.isEmpty then none
      else if portCs.isEmpty then some (String.mk hostCs, none)
      else if portCs.all Char.isDigit ∧ digitsToNat portCs ≤ 65535 then
        some (String.mk hostCs, some (digitsToNat portCs))
      else none
    else if hp.isEmpty then none
    else some (String.mk hp, none)

/-- The outbound Host header value built in forward_request: host, with
the colon-port suffix exactly when the parsed target URI carries an
explicit port. -/
def hostHeaderValue (host : String) (port : Option Nat) : String :=
  match port with
  | some p => host ++ ":" ++ toString p
  | none => host

/-- The header forwarding loop of forward_request: keep every header
whose lowercased name is not in HOP_BY_HOP_HEADERS. -/
def filterHop (hs : HeaderMap) : HeaderMap :=
  hs.filter (fun p => !(HOP_BY_HOP_HEADERS.contains (strToLower p.1)))

/-- Outbound header construction in forward_request: the filtered
inbound headers, then the explicit Host header appended by the request
builder. -/
def buildOutboundHeaders (hs : HeaderMap) (host : String) (port : Option Nat) :
    HeaderMap :=
  filterHop hs ++ [("host", asciiBytes (hostHeaderValue host port))]

/-- The response header cleanup in forward_request: each name in
SKIP_RESPONSE_HEADERS is removed (names in the map are lowercase, as
http::HeaderMap stores them). -/
def removeSkipHeaders (hs : HeaderMap) : HeaderMap :=
  hs.filter (fun p => !(SKIP_RESPONSE_HEADERS.contains p.1))

/-- An inbound request as the handler sees it: method, path, query,
headers, and the body collection outcome (reading the hyper body
stream can fail; that outcome is part of the request value here). -/
structure Req where
  method : String
  path : String
  query : Option String
  headers : HeaderMap
  body : Except String (List Nat)

/-- The outbound request handed to the hyper client. -/
structure OutboundReq where
  method : String
  uri : String
  headers : HeaderMap
  body : List Nat

/-- An upstream response as the hyper client returns it. -/
structure UpstreamResp where
  status : Nat
  headers : HeaderMap
  body : String

/-- Oracles for the effectful dependencies of the pipeline:
urlParse models url::Url::parse composed with Url::scheme (ok carries
the scheme, error carries the display of the parse error); wsErr
models tokio_tungstenite::connect_async (some carries the display of a
connection error, none is a successful handshake); upstream models the
hyper client call (error carries the display of the failure). -/
structure Oracles where
  urlParse : String → Except String String
  wsErr : String → Option String
  upstream : OutboundReq → Except String UpstreamResp

/-- forward_request from src/proxy.rs. The http::Uri re-parse of the
target is modelled by uriHostPort (its failure message detail is not
needed by any claim); body collection failure and the client call use
the request body outcome and the upstream oracle. The 500 branch for
a failing request builder is omitted: its inputs - a parsed method, a
parsed URI, header values taken from a valid header map and a host
value drawn from the parsed URI - cannot fail to build. -/
def forward_request (oracles : Oracles) (req : Req) (target_url : String)
    (origin : String) : Resp :=
  match uriHostPort target_url with
  | none => error_response 400 "Invalid target URI: "
  | some (host, port) =>
    match req.body with
    | .error _ => error_response 400 "Failed to read request body"
    | .ok bodyBytes =>
      let outReq : OutboundReq :=
        { method := req.method
        , uri := target_url
        , headers := buildOutboundHeaders req.headers host port
        , body := bodyBytes }
      match oracles.upstream outReq with
      | .error e => error_response 502 ("Failed to reach target: " ++ e)
      | .ok up =>
        { status := up.status
        , headers := add_cors_headers (removeSkipHeaders up.headers) origin req.headers
        , body := up.body }

/-- handle_websocket from src/proxy.rs: translate the scheme, attempt
the handshake, and answer 502 on failure or 501 on success - the
inbound connection is never upgraded. -/
def handle_websocket (oracles : Oracles) (target_url : String) : Resp :=
  let ws_url := wsTranslate target_url
  match oracles.wsErr ws_url with
  | some e => error_response 502 ("Failed to connect to WebSocket: " ++ e)
  | none =>
    error_response 501
      "WebSocket proxying requires connection hijacking. Use a direct WebSocket connection."

/-- Which branch of handle_request produced the response. -/
inductive RTag where
  | originErr
  | preflightT
  | welcome
  | invalidTarget
  | badUrl
  | badScheme
  | websocketT
  | forwardT
deriving DecidableEq

/-- A handled request: the response together with the branch tag. -/
structure HResult where
  resp : Resp
  tag : RTag
deriving DecidableEq

/-- handle_request from src/proxy.rs, with a tag recording which early
return produced the response. -/
def handle_request (oracles : Oracles) (config : Config) (req : Req) : HResult :=
  match check_origin req.headers config with
  | .error r => ⟨r, .originErr⟩
  | .ok origin =>
    if is_preflight req.method req.headers then
      ⟨handle_preflight origin req.headers, .preflightT⟩
    else if req.path = "/" ∨ req.path = "" then
      ⟨success_response "Holy CORS! Proxy is running. Usage: /\x7bTARGET_URL\x7d", .welcome⟩
    else
      match extract_target_url req.path req.query with
      | none => ⟨error_response 400 "Invalid target URL", .invalidTarget⟩
      | some target_url =>
        match oracles.urlParse target_url with
        | .error e => ⟨error_response 400 ("Invalid URL: " ++ e), .badUrl⟩
        | .ok scheme =>
          if scheme = "http" ∨ scheme = "https" then
            if is_websocket_upgrade req.headers then
              ⟨handle_websocket oracles target_url, .websocketT⟩
            else
              ⟨forward_request oracles req target_url origin, .forwardT⟩
          else
            ⟨error_response 400
              ("Unsupported scheme: " ++ scheme ++ ". Only http and https are allowed."),
             .badScheme⟩

/-! ## Claim-side (spec-worded) companion definitions -/

/-- Target resolution exactly as the C1 claim words it: strip one
leading slash, percent-decode, append the query when present, then
classify - with no other step. Kept separate from extract_target_url
so the two can be compared. -/
def claimedResolve (path : String) (query : Option String) : Option String :=
  let p := if strStartsWith path "/" then strDrop path 1 else path
  let decoded := urlencoding_decode p
  let url :=
    match query with
    | some q => decoded ++ "?" ++ q
    | none => decoded
  if strStartsWith url "http://" || strStartsWith url "https://" then some url
  else if strContainsChar url '.' && !(strContainsChar url ' ') then
    some ("https://" ++ url)
  else none

/-- Escape parsing exactly as the C5 claim words it: only a percent
sign followed by two hexadecimal digits is an escape. -/
def hexPair (a b : Char) : Option Nat :=
  match hexDigitVal a, hexDigitVal b with
  | some x, some y => some (16 * x + y)
  | _, _ => none

/-- The percent-decoder exactly as the C5 claim words it: a percent
sign followed by two hex digits becomes that byte; any other percent
sign is passed through verbatim together with the up-to-two characters
that followed it. Kept separate from decodeChars for comparison. -/
def claimedDecodeChars : List Char → List Char
  | [] => []
  | c :: rest =>
    if c = '%' then
      match rest with
      | a :: b :: rest2 =>
        match hexPair a b with
        | some n => Char.ofNat n :: claimedDecodeChars rest2
        | none => '%' :: a :: b :: claimedDecodeChars rest2
      | [a] => ['%', a]
      | [] => ['%']
    else c :: claimedDecodeChars rest

/-- String form of the claimed decoder. -/
def claimedDecode (s : String) : String :=
  String.mk (claimedDecodeChars s.data)

/-- Default port of a scheme, for stating the C6 claim. -/
def defaultPort (scheme : String) : Nat :=
  if scheme = "https" then 443 else 80

/-- The outbound Host value exactly as the C6 claim words it: the port
is appended only when it is present and differs from the default port
of the scheme. Kept separate from hostHeaderValue for comparison. -/
def claimedHostHeaderValue (scheme host : String) (port : Option Nat) : String :=
  match port with
  | some p => if p ≠ defaultPort scheme then host ++ ":" ++ toString p else host
  | none => host

/-! ## A JSON checker for the error body shape

parseErrorBody accepts exactly the well-formed JSON texts that are an
object with the single member named error holding a string, and
returns the decoded message. It is used to state claim C7. -/

/-- The opening brace character. -/
def lbrace : Char := Char.ofNat 123

/-- The closing brace character. -/
def rbrace : Char := Char.ofNat 125

/-- JSON insignificant whitespace. -/
def jsonWs (c : Char) : Bool := c == ' ' || c == '\t' || c == '\n' || c == '\r'

/-- The table of single-character JSON string escapes: escape letter
paired with the character it denotes. -/
def jsonEscTable : List (Char × Char) :=
  [('"', '"'), ('\\', '\\'), ('/', '/'), ('b', Char.ofNat 8), ('f', Char.ofNat 12),
   ('n', '\n'), ('r', '\r'), ('t', '\t')]

/-- Single-character JSON string escapes, by table lookup. -/
def jsonEscChar (c : Char) : Option Char :=
  (jsonEscTable.find? (fun q => q.1 == c)).map Prod.snd

/-- Decode one JSON escape sequence (the backslash already consumed):
a single-character escape or a u-escape with four hex digits, giving
the decoded character and the rest of the input. -/
def jsonEscape : List Char → Option (Char × List Char)
  | [] => none
  | e :: rest2 =>
    match jsonEscChar e with
    | some d => some (d, rest2)
    | none =>
      if e = 'u' then
        match rest2 with
        | h1 :: h2 :: h3 :: h4 :: rest3 =>
          match hexDigitVal h1, hexDigitVal h2, hexDigitVal h3, hexDigitVal h4 with
          | some x1, some x2, some x3, some x4 =>
            some (Char.ofNat (4096 * x1 + 256 * x2 + 16 * x3 + x4), rest3)
          | _, _, _, _ => none
        | _ => none
      else none

/-- Parse the remainder of a JSON string literal (the opening quote
already consumed): unescaped quote ends it, backslash escapes are
decoded, raw control characters are rejected. Returns the decoded
characters and the rest of the input. Structured with explicit fuel
(any bound on the number of parsing steps; each step consumes at least
one character) so that it computes by structural recursion. -/
def jsonStringRestF : Nat → List Char → Option (List Char × List Char)
  | 0, _ => none
  | _ + 1, [] => none
  | fuel + 1, c :: rest =>
    if c = '"' then some ([], rest)
    else if c = '\\' then
      match jsonEscape rest with
      | some (d, rest2) => (jsonStringRestF fuel rest2).map fun p => (d :: p.1, p.2)
      | none => none
    else if c.toNat < 32 then none
    else (jsonStringRestF fuel rest).map fun p => (c :: p.1, p.2)

/-- The string-literal parser with its fuel instantiated to the input
length, which always suffices. -/
def jsonStringRest (l : List Char) : Option (List Char × List Char) :=
  jsonStringRestF l.length l

/-- Consume one expected character. -/
def expectChar (c : Char) : List Char → Option (List Char)
  | [] => none
  | a :: rest => if a = c then some rest else none

/-- Accepts exactly the well-formed JSON texts of the shape the spec
requires for error bodies - an object with one member named error
whose value is a string - and returns the decoded message. -/
def parseErrorBody (s : String) : Option String :=
  (expectChar lbrace (s.data.dropWhile jsonWs)).bind fun l1 =>
  (expectChar '"' (l1.dropWhile jsonWs)).bind fun l2 =>
  (jsonStringRest l2).bind fun kp =>
  if kp.1 = "error".data then
    (expectChar ':' (kp.2.dropWhile jsonWs)).bind fun l4 =>
    (expectChar '"' (l4.dropWhile jsonWs)).bind fun l5 =>
    (jsonStringRest l5).bind fun mp =>
    (expectChar rbrace (mp.2.dropWhile jsonWs)).bind fun l7 =>
    if (l7.dropWhile jsonWs).isEmpty then some (String.mk mp.1) else none
  else none

/-- Characters safe to interpolate verbatim into a JSON string literal:
not a quote, not a backslash, not a control character. -/
def jsonSafeChar (c : Char) : Bool :=
  !(c = '"') && !(c = '\\') && 32 ≤ c.toNat

/-- A message every character of which is safe to interpolate. -/
def jsonSafe (s : String) : Bool := s.data.all jsonSafeChar

/-! ## Helper lemmas -/

theorem char_toNat_ofNat (b : Nat) (h : b < 55296) : (Char.ofNat b).toNat = b := by
  unfold Char.ofNat
  rw [dif_pos (Or.inl h)]
  rfl

theorem visibleAsciiByte_lt (b : Nat) (h : visibleAsciiByte b = true) : b < 127 := by
  simp only [visibleAsciiByte, Bool.or_eq_true, beq_iff_eq, Bool.and_eq_true,
    decide_eq_true_eq] at h
  omega

/-- A value readable by to_str is accepted back by from_str with the
same bytes: readable bytes are visible ASCII, hence valid header-value
characters with matching codepoints. -/
theorem hvalToStr_roundtrip (v : HVal) (s : String) (h : hvalToStr v = some s) :
    strToHVal s = some v := by
  unfold hvalToStr at h
  split at h
  case isTrue hall =>
    have hs : s = String.mk (v.map Char.ofNat) := by
      exact (Option.some.injEq _ _).mp h |>.symm
    have hmem : ∀ b ∈ v, visibleAsciiByte b = true := List.all_eq_true.mp hall
    have hdata : s.data = v.map Char.ofNat := by rw [hs]
    unfold strToHVal
    have hvalid : s.data.all validHVChar = true := by
      rw [hdata, List.all_eq_true]
      intro c hc
      rcases List.mem_map.mp hc with ⟨b, hb, rfl⟩
      have hlt : b < 127 := visibleAsciiByte_lt b (hmem b hb)
      have htn : (Char.ofNat b).toNat = b := char_toNat_ofNat b (by omega)
      have hvb := hmem b hb
      simp only [visibleAsciiByte, Bool.or_eq_true, beq_iff_eq, Bool.and_eq_true,
        decide_eq_true_eq] at hvb
      simp only [validHVChar, htn, Bool.or_eq_true, beq_iff_eq, Bool.and_eq_true,
        decide_eq_true_eq, bne_iff_ne, ne_eq]
      omega
    rw [if_pos hvalid, hdata, List.map_map]
    congr 1
    have : ∀ b ∈ v, (Char.toNat ∘ Char.ofNat) b = id b := by
      intro b hb
      have hlt : b < 127 := visibleAsciiByte_lt b (hmem b hb)
      simpa using char_toNat_ofNat b (by omega)
    rw [List.map_congr_left this, List.map_id]
  case isFalse => exact absurd h (by simp)

/-- A readable value yields a string every character of which is a
valid header-value character. -/
theorem hvalToStr_valid (v : HVal) (s : String) (h : hvalToStr v = some s) :
    (strToHVal s).isSome = true := by
  rw [hvalToStr_roundtrip v s h]
  rfl

theorem find?_filter_of_imp {α : Type} (p q : α → Bool) (l : List α)
    (h : ∀ x, p x = true → q x = true) :
    List.find? p (l.filter q) = List.find? p l := by
  induction l with
  | nil => rfl
  | cons a t ih =>
    by_cases hq : q a = true
    · rw [List.filter_cons_of_pos hq]
      by_cases hp : p a = true
      · rw [List.find?_cons_of_pos _ hp, List.find?_cons_of_pos _ hp]
      · rw [List.find?_cons_of_neg _ hp, List.find?_cons_of_neg _ hp, ih]
    · rw [List.filter_cons_of_neg (by simpa using hq)]
      have hp : ¬ p a = true := fun hpa => hq (h a hpa)
      rw [List.find?_cons_of_neg _ hp, ih]

theorem hmGet_insert_self (hs : HeaderMap) (n : String) (v : HVal) :
    hmGet (hmInsert hs n v) n = some v := by
  unfold hmGet hmInsert
  rw [List.find?_append]
  have hnone : List.find? (fun p => p.1 == n) (hs.filter fun p => !(p.1 == n)) = none := by
    rw [List.find?_eq_none]
    intro x hx
    have hxf := (List.mem_filter.mp hx).2
    simpa using hxf
  rw [hnone]
  simp

theorem hmGet_insert_ne (hs : HeaderMap) (n m : String) (v : HVal) (h : m ≠ n) :
    hmGet (hmInsert hs n v) m = hmGet hs m := by
  unfold hmGet hmInsert
  rw [List.find?_append]
  have h1 : List.find? (fun p => p.1 == m) (hs.filter fun p => !(p.1 == n)) =
      List.find? (fun p => p.1 == m) hs := by
    apply find?_filter_of_imp
    intro x hx
    have : x.1 = m := by simpa using hx
    simp [this, h]
  have h2 : List.find? (fun p => p.1 == m) [(n, v)] = none := by
    have hnm : (n == m) = false := by
      simpa using h.symm
    simp [List.find?, hnm]
  rw [h1, h2]
  cases List.find? (fun p => p.1 == m) hs <;> rfl

theorem add_cors_lookup_credentials (hs : HeaderMap) (o : String) (rh : HeaderMap) :
    hmGet (add_cors_headers hs o rh) "access-control-allow-credentials" =
      some (asciiBytes "true") := by
  simp only [add_cors_headers]
  exact hmGet_insert_self _ _ _

theorem add_cors_lookup_max_age (hs : HeaderMap) (o : String) (rh : HeaderMap) :
    hmGet (add_cors_headers hs o rh) "access-control-max-age" =
      some (asciiBytes "86400") := by
  simp only [add_cors_headers]
  rw [hmGet_insert_ne _ _ _ _ (by decide)]
  exact hmGet_insert_self _ _ _

theorem add_cors_lookup_expose (hs : HeaderMap) (o : String) (rh : HeaderMap) :
    hmGet (add_cors_headers hs o rh) "access-control-expose-headers" =
      some (asciiBytes "*") := by
  simp only [add_cors_headers]
  rw [hmGet_insert_ne _ _ _ _ (by decide), hmGet_insert_ne _ _ _ _ (by decide)]
  exact hmGet_insert_self _ _ _

theorem add_cors_lookup_allow_headers (hs : HeaderMap) (o : String) (rh : HeaderMap) :
    hmGet (add_cors_headers hs o rh) "access-control-allow-headers" =
      some ((hmGet rh "access-control-request-headers").getD (asciiBytes "*")) := by
  simp only [add_cors_headers]
  rw [hmGet_insert_ne _ _ _ _ (by decide), hmGet_insert_ne _ _ _ _ (by decide),
    hmGet_insert_ne _ _ _ _ (by decide)]
  cases hmGet rh "access-control-request-headers" with
  | none => exact hmGet_insert_self _ _ _
  | some rv => exact hmGet_insert_self _ _ _

theorem add_cors_lookup_methods (hs : HeaderMap) (o : String) (rh : HeaderMap) :
    hmGet (add_cors_headers hs o rh) "access-control-allow-methods" =
      some (asciiBytes CORS_METHODS) := by
  simp only [add_cors_headers]
  rw [hmGet_insert_ne _ _ _ _ (by decide), hmGet_insert_ne _ _ _ _ (by decide),
    hmGet_insert_ne _ _ _ _ (by decide)]
  have hne : ("access-control-allow-methods" : String) ≠ "access-control-allow-headers" := by
    decide
  cases hmGet rh "access-control-request-headers" with
  | none =>
    rw [hmGet_insert_ne _ _ _ _ hne]
    exact hmGet_insert_self _ _ _
  | some rv =>
    rw [hmGet_insert_ne _ _ _ _ hne]
    exact hmGet_insert_self _ _ _

theorem add_cors_lookup_acao_peel (hs : HeaderMap) (o : String) (rh : HeaderMap) :
    hmGet (add_cors_headers hs o rh) "access-control-allow-origin" =
      hmGet
        (if o ≠ "" then
          match strToHVal o with
          | some v => hmInsert hs "access-control-allow-origin" v
          | none => hs
        else hmInsert hs "access-control-allow-origin" (asciiBytes "*"))
        "access-control-allow-origin" := by
  simp only [add_cors_headers]
  rw [hmGet_insert_ne _ _ _ _ (by decide), hmGet_insert_ne _ _ _ _ (by decide),
    hmGet_insert_ne _ _ _ _ (by decide)]
  have hne : ("access-control-allow-origin" : String) ≠ "access-control-allow-headers" := by
    decide
  have hne2 : ("access-control-allow-origin" : String) ≠ "access-control-allow-methods" := by
    decide
  cases hmGet rh "access-control-request-headers" with
  | none => rw [hmGet_insert_ne _ _ _ _ hne, hmGet_insert_ne _ _ _ _ hne2]
  | some rv => rw [hmGet_insert_ne _ _ _ _ hne, hmGet_insert_ne _ _ _ _ hne2]

theorem add_cors_lookup_acao_empty (hs : HeaderMap) (rh : HeaderMap) :
    hmGet (add_cors_headers hs "" rh) "access-control-allow-origin" =
      some (asciiBytes "*") := by
  rw [add_cors_lookup_acao_peel]
  simp only [ne_eq, not_true_eq_false, if_false]
  exact hmGet_insert_self _ _ _

theorem add_cors_lookup_acao_valid (hs : HeaderMap) (o : String) (rh : HeaderMap)
    (ho : o ≠ "") (v : HVal) (hv : strToHVal o = some v) :
    hmGet (add_cors_headers hs o rh) "access-control-allow-origin" = some v := by
  rw [add_cors_lookup_acao_peel]
  rw [if_pos ho, hv]
  exact hmGet_insert_self _ _ _

theorem add_cors_lookup_acao_invalid (hs : HeaderMap) (o : String) (rh : HeaderMap)
    (ho : o ≠ "") (hv : strToHVal o = none) :
    hmGet (add_cors_headers hs o rh) "access-control-allow-origin" =
      hmGet hs "access-control-allow-origin" := by
  rw [add_cors_lookup_acao_peel]
  rw [if_pos ho, hv]

theorem is_origin_allowed_iff (c : Config) (s : String) :
    c.is_origin_allowed s = true ↔
      (c.allow_all = true ∨ s = "https://bugdays.com" ∨ s = "https://www.bugdays.com" ∨
       s = "http://bugdays.com" ∨ s = "http://www.bugdays.com" ∨ s ∈ c.allow_origins) := by
  unfold Config.is_origin_allowed Config.allowed_origins DEFAULT_ORIGINS
  by_cases ha : c.allow_all = true
  · simp [ha]
  · rw [if_neg ha]
    rw [List.contains_eq_any_beq]
    simp only [List.any_eq_true, List.mem_append, List.mem_cons, List.not_mem_nil,
      or_false, beq_iff_eq, ha, false_or]
    constructor
    · rintro ⟨x, hx, rfl⟩
      tauto
    · intro h
      exact ⟨s, by tauto, rfl⟩

/-- Every successful origin check yields either the empty string (no
Origin header) or exactly the readable value of the first Origin
header. -/
theorem check_origin_ok_cases (hs : HeaderMap) (c : Config) (o : String)
    (h : check_origin hs c = .ok o) :
    o = "" ∨ ∃ v, hmGet hs "origin" = some v ∧ hvalToStr v = some o := by
  cases hv : hmGet hs "origin" with
  | none =>
    simp only [check_origin, hv] at h
    exact Or.inl (by injection h with h; exact h.symm)
  | some v =>
    cases hsv : hvalToStr v with
    | none => simp [check_origin, hv, hsv] at h
    | some s =>
      simp only [check_origin, hv, hsv] at h
      split at h
      · injection h with h
        exact Or.inr ⟨v, rfl, by rw [hsv, h]⟩
      · exact absurd h (by simp)

/-- C2: origin policy. If no Origin header is present the check
succeeds with the empty string; a present but unreadable value fails
with the 400 error response; a readable value succeeds unchanged
exactly when allow_all is set or the value is an exact member of the
four built-in defaults or the configured extras, and fails with the
403 error response on mismatch. -/
theorem check_origin_spec (headers : HeaderMap) (config : Config) :
    (hmGet headers "origin" = none → check_origin headers config = .ok "")
    ∧ (∀ v, hmGet headers "origin" = some v →
        (hvalToStr v = none →
          check_origin headers config =
            .error (error_response 400 "Invalid Origin header"))
        ∧ (∀ s, hvalToStr v = some s →
            (check_origin headers config = .ok s ↔
              (config.allow_all = true ∨ s = "https://bugdays.com" ∨
               s = "https://www.bugdays.com" ∨ s = "http://bugdays.com" ∨
               s = "http://www.bugdays.com" ∨ s ∈ config.allow_origins))
            ∧ (config.is_origin_allowed s = false →
                check_origin headers config = .error (error_response 403
                  ("Origin '" ++ s ++ "' is not allowed. Use --allow-origin to add it."))))) := by
  refine ⟨fun hnone => ?_, fun v hv => ⟨fun hbad => ?_, fun s hs => ⟨?_, fun hdis => ?_⟩⟩⟩
  · simp only [check_origin, hnone]
  · simp only [check_origin, hv, hbad]
  · simp only [check_origin, hv, hs]
    rw [← is_origin_allowed_iff]
    by_cases hia : config.is_origin_allowed s = true
    · simp [hia]
    · simp [hia]
  · simp only [check_origin, hv, hs]
    rw [if_neg (by simp [hdis])]

/-- Witness for C2: the first built-in default origin is accepted
unchanged under the default configuration. -/
theorem check_origin_spec_witness :
    check_origin [("origin", asciiBytes "https://bugdays.com")]
      ⟨8080, [], false, false, "0.0.0.0"⟩ = .ok "https://bugdays.com" := by
  have h := (check_origin_spec [("origin", asciiBytes "https://bugdays.com")]
      ⟨8080, [], false, false, "0.0.0.0"⟩).2 (asciiBytes "https://bugdays.com") (by decide)
  exact ((h.2 "https://bugdays.com" (by decide)).1).mpr (by decide)

/-- C1 counterexample: on the path consisting of just a slash with
query x.y, the code returns none (the stripped path is empty), while
the algorithm exactly as the claim words it - decode, append the
query, then classify - would return a target. -/
theorem extract_target_url_claim_counterexample :
    extract_target_url "/" (some "x.y") = none ∧
    claimedResolve "/" (some "x.y") = some "https://?x.y" ∧
    extract_target_url "/" (some "x.y") ≠ claimedResolve "/" (some "x.y") := by
  refine ⟨by decide, by decide, by decide⟩

/-- C1 (amended): target resolution follows the claimed algorithm -
strip one leading slash, percent-decode, append the query, accept
http(s)-anchored strings, infer https for dotted space-free strings,
otherwise none - except that an empty path after stripping resolves to
none immediately, before the query is consulted; the concrete example
path resolves to the claimed target. -/
theorem extract_target_url_spec :
    (∀ path query, extract_target_url path query =
      if (if strStartsWith path "/" then strDrop path 1 else path) = "" then none
      else claimedResolve path query)
    ∧ extract_target_url "/example.com/path" (some "q=1") =
        some "https://example.com/path?q=1" := by
  constructor
  · intro path query
    simp only [extract_target_url, claimedResolve]
  · decide

/-- C5 counterexample: the input percent plus-sign A is not a percent
sign followed by two hexadecimal digits, so the claim says it passes
through verbatim; the code instead feeds the two taken characters to
u8::from_str_radix, which strips the leading plus sign and decodes the
byte 10, a line feed. -/
theorem urlencoding_decode_claim_counterexample :
    urlencoding_decode "%+A" = "\n" ∧
    claimedDecode "%+A" = "%+A" ∧
    urlencoding_decode "%+A" ≠ claimedDecode "%+A" := by
  refine ⟨by decide, by decide, by decide⟩

/-- C5 (amended): the decoder is total and never fails; a percent sign
followed by two characters accepted by u8::from_str_radix in base 16 -
two hex digits, or a plus sign and one hex digit - is replaced by the
corresponding byte, and any other percent sign is passed through
verbatim together with the up-to-two characters that followed it;
decoding is applied to the path before the query is appended and
before URL recognition, so the claimed concrete resolution holds. -/
theorem urlencoding_decode_spec :
    (∀ s, urlencoding_decode s = String.mk (decodeChars s.data))
    ∧ decodeChars [] = []
    ∧ (∀ c rest, c ≠ '%' → decodeChars (c :: rest) = c :: decodeChars rest)
    ∧ (∀ a b rest n, parseByte2 a b = some n →
        decodeChars ('%' :: a :: b :: rest) = Char.ofNat n :: decodeChars rest)
    ∧ (∀ a b rest, parseByte2 a b = none →
        decodeChars ('%' :: a :: b :: rest) = '%' :: a :: b :: decodeChars rest)
    ∧ (∀ a, decodeChars ['%', a] = ['%', a])
    ∧ decodeChars ['%'] = ['%']
    ∧ (∀ a b n, parseByte2 a b = some n ↔
        ((∃ x y, hexDigitVal a = some x ∧ hexDigitVal b = some y ∧ n = 16 * x + y)
         ∨ (a = '+' ∧ hexDigitVal b = some n)))
    ∧ extract_target_url "/https%3A%2F%2Fapi.example.com%2Fusers" none =
        some "https://api.example.com/users" := by
  refine ⟨fun s => rfl, rfl, ?_, ?_, ?_, fun a => rfl, rfl, ?_, by decide⟩
  · intro c rest hc
    rw [decodeChars.eq_def]
    simp [hc]
  · intro a b rest n hab
    simp [decodeChars, hab]
  · intro a b rest hab
    simp [decodeChars, hab]
  · intro a b n
    have hplus : hexDigitVal '+' = none := by decide
    unfold parseByte2
    cases ha : hexDigitVal a with
    | some x =>
      have hane : a ≠ '+' := by
        intro h
        rw [h, hplus] at ha
        cases ha
      cases hb : hexDigitVal b with
      | some y =>
        simp only [Option.some.injEq, hane, false_and, or_false]
        constructor
        · intro h
          exact ⟨x, y, rfl, rfl, h.symm⟩
        · rintro ⟨x', y', hx', hy', rfl⟩
          rw [hx', hy']
      | none => simp [hane]
    | none =>
      cases hb : hexDigitVal b with
      | some y =>
        by_cases hap : a = '+' <;> simp [hap, eq_comm]
      | none =>
        by_cases hap : a = '+' <;> simp [hap]

/-- Witness for C5 (amended): the escape equation applied at a
concrete escape, and the pass-through equation at a concrete
malformed escape. -/
theorem urlencoding_decode_spec_witness :
    parseByte2 '4' '1' = some 65 ∧ decodeChars ['%', '4', '1'] = ['A'] ∧
    parseByte2 'z' 'z' = none ∧ decodeChars ['%', 'z', 'z'] = ['%', 'z', 'z'] := by
  refine ⟨by decide, ?_, by decide, ?_⟩
  · exact (urlencoding_decode_spec.2.2.2.1 '4' '1' [] 65 (by decide)).trans (by decide)
  · exact (urlencoding_decode_spec.2.2.2.2.1 'z' 'z' [] (by decide)).trans (by decide)

theorem strToHVal_eq_of_isSome (s : String) (h : (strToHVal s).isSome = true) :
    strToHVal s = some (asciiBytes s) := by
  unfold strToHVal at h ⊢
  by_cases hv : s.data.all validHVChar = true
  · rw [if_pos hv]
    rfl
  · rw [if_neg hv] at h
    cases h

/-- A successful origin check with a non-empty result comes from a
readable Origin header whose bytes from_str back to themselves. -/
theorem check_origin_ok_nonempty (hs : HeaderMap) (c : Config) (o : String)
    (h : check_origin hs c = .ok o) (ho : o ≠ "") :
    ∃ v, hmGet hs "origin" = some v ∧ hvalToStr v = some o ∧ strToHVal o = some v := by
  rcases check_origin_ok_cases hs c o h with h0 | ⟨v, hv, hsv⟩
  · exact absurd h0 ho
  · exact ⟨v, hv, hsv, hvalToStr_roundtrip v o hsv⟩

/-- C4 counterexample: an origin containing a line feed is a non-empty
origin string, yet annotation does not set Access-Control-Allow-Origin
at all (HeaderValue::from_str rejects the value and the insertion is
silently skipped), so not all six headers are set and the header does
not equal the origin verbatim. -/
theorem add_cors_headers_claim_counterexample :
    ("a\nb" : String) ≠ "" ∧
    hmGet (add_cors_headers [] "a\nb" []) "access-control-allow-origin" = none := by
  exact ⟨by decide, by decide⟩

/-- C4 (amended): annotation always sets the five fixed CORS headers,
overwriting pre-existing values; it sets Access-Control-Allow-Origin
to the wildcard when the origin is empty and to the origin verbatim
when the origin is non-empty and a valid header value, but leaves it
untouched when the origin is not a valid header value. On a successful
proxied call the response Access-Control-Allow-Origin equals the
validated Origin header bytes exactly whenever the validated origin is
non-empty, and the wildcard when no Origin header was sent (a
validated origin is always a valid header value, so the skip case is
unreachable there). -/
theorem add_cors_headers_spec :
    (∀ hs o rh,
      hmGet (add_cors_headers hs o rh) "access-control-allow-methods" =
        some (asciiBytes CORS_METHODS)
      ∧ hmGet (add_cors_headers hs o rh) "access-control-allow-headers" =
          some ((hmGet rh "access-control-request-headers").getD (asciiBytes "*"))
      ∧ hmGet (add_cors_headers hs o rh) "access-control-expose-headers" =
          some (asciiBytes "*")
      ∧ hmGet (add_cors_headers hs o rh) "access-control-max-age" =
          some (asciiBytes "86400")
      ∧ hmGet (add_cors_headers hs o rh) "access-control-allow-credentials" =
          some (asciiBytes "true")
      ∧ (o = "" → hmGet (add_cors_headers hs o rh) "access-control-allow-origin" =
          some (asciiBytes "*"))
      ∧ (∀ v, o ≠ "" → strToHVal o = some v →
          hmGet (add_cors_headers hs o rh) "access-control-allow-origin" = some v)
      ∧ (o ≠ "" → strToHVal o = none →
          hmGet (add_cors_headers hs o rh) "access-control-allow-origin" =
            hmGet hs "access-control-allow-origin"))
    ∧ (∀ oracles (req : Req) config origin target host port bs up,
        check_origin req.headers config = .ok origin →
        uriHostPort target = some (host, port) →
        req.body = .ok bs →
        oracles.upstream
          { method := req.method, uri := target,
            headers := buildOutboundHeaders req.headers host port, body := bs } = .ok up →
        ((∀ v, hmGet req.headers "origin" = some v → origin ≠ "" →
            hmGet (forward_request oracles req target origin).headers
              "access-control-allow-origin" = some v)
         ∧ (hmGet req.headers "origin" = none →
            hmGet (forward_request oracles req target origin).headers
              "access-control-allow-origin" = some (asciiBytes "*")))) := by
  constructor
  · intro hs o rh
    refine ⟨add_cors_lookup_methods hs o rh, ?_, add_cors_lookup_expose hs o rh,
      add_cors_lookup_max_age hs o rh, add_cors_lookup_credentials hs o rh,
      ?_, ?_, ?_⟩
    · rw [add_cors_lookup_allow_headers hs o rh]
    · intro ho
      rw [ho]
      exact add_cors_lookup_acao_empty hs rh
    · intro v ho hv
      exact add_cors_lookup_acao_valid hs o rh ho v hv
    · intro ho hv
      exact add_cors_lookup_acao_invalid hs o rh ho hv
  · intro oracles req config origin target host port bs up hchk huri hbody hup
    have hfr : forward_request oracles req target origin =
        { status := up.status
        , headers := add_cors_headers (removeSkipHeaders up.headers) origin req.headers
        , body := up.body } := by
      simp only [forward_request, huri, hbody, hup]
    constructor
    · intro v hv hne
      have hread : hvalToStr v = some origin := by
        rcases check_origin_ok_nonempty req.headers config origin hchk hne with
          ⟨v', hv', hsv', _⟩
        rw [hv] at hv'
        injection hv' with hv'
        rw [hv']
        exact hsv'
      have hback : strToHVal origin = some v := hvalToStr_roundtrip v origin hread
      rw [hfr]
      exact add_cors_lookup_acao_valid _ _ _ hne v hback
    · intro hnone
      have ho : origin = "" := by
        rcases check_origin_ok_cases req.headers config origin hchk with h0 | ⟨v', hv', _⟩
        · exact h0
        · rw [hnone] at hv'
          cases hv'
      rw [hfr, ho]
      exact add_cors_lookup_acao_empty _ _

/-- Witness for C4 (amended): a concrete annotation and a concrete
successful proxied call both echo the validated origin. -/
theorem add_cors_headers_spec_witness :
    hmGet (add_cors_headers [] "https://bugdays.com" []) "access-control-allow-origin" =
      some (asciiBytes "https://bugdays.com") ∧
    hmGet (forward_request
        ⟨fun _ => .ok "https", fun _ => none, fun _ => .ok ⟨200, [], "OK"⟩⟩
        ⟨"GET", "/example.com", none, [("origin", asciiBytes "https://bugdays.com")], .ok []⟩
        "https://example.com" "https://bugdays.com").headers
      "access-control-allow-origin" = some (asciiBytes "https://bugdays.com") := by
  constructor
  · exact (add_cors_headers_spec.1 [] "https://bugdays.com" []).2.2.2.2.2.2.1
      (asciiBytes "https://bugdays.com") (by decide) (by decide)
  · have h := (add_cors_headers_spec.2
      ⟨fun _ => .ok "https", fun _ => none, fun _ => .ok ⟨200, [], "OK"⟩⟩
      ⟨"GET", "/example.com", none, [("origin", asciiBytes "https://bugdays.com")], .ok []⟩
      ⟨8080, [], false, false, "0.0.0.0"⟩ "https://bugdays.com" "https://example.com"
      "example.com" none [] ⟨200, [], "OK"⟩
      (by rfl) (by decide) rfl rfl)
    exact h.1 (asciiBytes "https://bugdays.com") (by decide) (by decide)

/-- C3: a request is classified as a preflight iff its method is
OPTIONS and Access-Control-Request-Method is present; every preflight
with an accepted origin is answered by the preflight branch with
status exactly 204, an empty body and all six CORS headers, and the
result does not depend on the path, the query, the body or any of the
effect oracles - the resolver and the forwarding engine are never
consulted. -/
theorem preflight_short_circuit :
    (∀ method headers, is_preflight method headers = true ↔
        (method = "OPTIONS" ∧ hmContains headers "access-control-request-method" = true))
    ∧ (∀ oracles config (req : Req) origin,
        check_origin req.headers config = .ok origin →
        is_preflight req.method req.headers = true →
        handle_request oracles config req = ⟨handle_preflight origin req.headers, .preflightT⟩
        ∧ (handle_preflight origin req.headers).status = 204
        ∧ (handle_preflight origin req.headers).body = ""
        ∧ hmGet (handle_preflight origin req.headers).headers
            "access-control-allow-origin" =
            some (if origin = "" then asciiBytes "*" else asciiBytes origin)
        ∧ hmGet (handle_preflight origin req.headers).headers
            "access-control-allow-methods" = some (asciiBytes CORS_METHODS)
        ∧ hmGet (handle_preflight origin req.headers).headers
            "access-control-allow-headers" =
            some ((hmGet req.headers "access-control-request-headers").getD (asciiBytes "*"))
        ∧ hmGet (handle_preflight origin req.headers).headers
            "access-control-expose-headers" = some (asciiBytes "*")
        ∧ hmGet (handle_preflight origin req.headers).headers
            "access-control-max-age" = some (asciiBytes "86400")
        ∧ hmGet (handle_preflight origin req.headers).headers
            "access-control-allow-credentials" = some (asciiBytes "true")
        ∧ (∀ oracles' p q b, handle_request oracles' config
            { req with path := p, query := q, body := b } =
            handle_request oracles config req)) := by
  constructor
  · intro method headers
    unfold is_preflight
    constructor
    · intro h
      rcases Bool.and_eq_true _ _ |>.mp h with ⟨h1, h2⟩
      exact ⟨by simpa using h1, h2⟩
    · rintro ⟨h1, h2⟩
      rw [Bool.and_eq_true]
      exact ⟨by simp [h1], h2⟩
  · intro oracles config req origin hchk hpre
    have hmain : handle_request oracles config req =
        ⟨handle_preflight origin req.headers, .preflightT⟩ := by
      simp only [handle_request, hchk, hpre, if_true]
    refine ⟨hmain, rfl, rfl, ?_, ?_, ?_, ?_, ?_, ?_, ?_⟩
    · unfold handle_preflight
      by_cases ho : origin = ""
      · rw [if_pos ho, ho]
        exact add_cors_lookup_acao_empty [] req.headers
      · rw [if_neg ho]
        rcases check_origin_ok_nonempty req.headers config origin hchk ho with
          ⟨v, _, _, hback⟩
        have hsome : (strToHVal origin).isSome = true := by rw [hback]; rfl
        exact add_cors_lookup_acao_valid [] origin req.headers ho (asciiBytes origin)
          (strToHVal_eq_of_isSome origin hsome)
    · exact add_cors_lookup_methods [] origin req.headers
    · exact add_cors_lookup_allow_headers [] origin req.headers
    · exact add_cors_lookup_expose [] origin req.headers
    · exact add_cors_lookup_max_age [] origin req.headers
    · exact add_cors_lookup_credentials [] origin req.headers
    · intro oracles' p q b
      have hchk' : check_origin
          ({ req with path := p, query := q, body := b } : Req).headers config =
          .ok origin := hchk
      have hpre' : is_preflight ({ req with path := p, query := q, body := b } : Req).method
          ({ req with path := p, query := q, body := b } : Req).headers = true := hpre
      have h1 : handle_request oracles' config { req with path := p, query := q, body := b } =
          ⟨handle_preflight origin req.headers, .preflightT⟩ := by
        simp only [handle_request, hchk', hpre', if_true]
      rw [h1, hmain]

/-- Witness for C3: a concrete OPTIONS preflight from an allowed
origin is answered 204 by the preflight branch. -/
theorem preflight_short_circuit_witness :
    handle_request
      ⟨fun _ => .error "unused", fun _ => some "unused", fun _ => .error "unused"⟩
      ⟨8080, [], false, false, "0.0.0.0"⟩
      ⟨"OPTIONS", "/x", none,
        [("origin", asciiBytes "https://bugdays.com"),
         ("access-control-request-method", asciiBytes "GET")], .ok []⟩ =
      ⟨handle_preflight "https://bugdays.com"
        [("origin", asciiBytes "https://bugdays.com"),
         ("access-control-request-method", asciiBytes "GET")], .preflightT⟩ ∧
    (handle_preflight "https://bugdays.com"
      [("origin", asciiBytes "https://bugdays.com"),
       ("access-control-request-method", asciiBytes "GET")]).status = 204 := by
  have h := preflight_short_circuit.2
    ⟨fun _ => .error "unused", fun _ => some "unused", fun _ => .error "unused"⟩
    ⟨8080, [], false, false, "0.0.0.0"⟩
    ⟨"OPTIONS", "/x", none,
      [("origin", asciiBytes "https://bugdays.com"),
       ("access-control-request-method", asciiBytes "GET")], .ok []⟩
    "https://bugdays.com" (by rfl) (by decide)
  exact ⟨h.1, h.2.1⟩

/-- C9: with an accepted origin and no preflight classification, a GET
request whose path is the bare slash or empty is answered by the
welcome branch: status 200, a JSON message body, and the wildcard
Access-Control-Allow-Origin; and the path condition is equivalent to
the path being empty after stripping one leading slash. -/
theorem welcome_route (oracles : Oracles) (config : Config) (req : Req) (origin : String)
    (hmethod : req.method = "GET")
    (hchk : check_origin req.headers config = .ok origin)
    (hpre : is_preflight req.method req.headers = false)
    (hpath : req.path = "/" ∨ req.path = "") :
    handle_request oracles config req =
      ⟨success_response "Holy CORS! Proxy is running. Usage: /\x7bTARGET_URL\x7d", .welcome⟩
    ∧ (handle_request oracles config req).resp.status = 200
    ∧ (handle_request oracles config req).resp.body =
        "\x7b\"message\": \"Holy CORS! Proxy is running. Usage: /\x7bTARGET_URL\x7d\"\x7d"
    ∧ hmGet (handle_request oracles config req).resp.headers
        "access-control-allow-origin" = some (asciiBytes "*")
    ∧ (∀ p : String, (p = "/" ∨ p = "") ↔
        (if strStartsWith p "/" then strDrop p 1 else p) = "") := by
  have hmain : handle_request oracles config req =
      ⟨success_response "Holy CORS! Proxy is running. Usage: /\x7bTARGET_URL\x7d", .welcome⟩ := by
    simp only [handle_request, hchk, hpre, Bool.false_eq_true, if_false, if_pos hpath]
  refine ⟨hmain, by rw [hmain]; rfl, by rw [hmain]; decide, by rw [hmain]; decide, ?_⟩
  intro p
  obtain ⟨l⟩ := p
  constructor
  · rintro (h | h)
    · rw [h]
      decide
    · rw [h]
      decide
  · intro h
    by_cases hsw : strStartsWith (String.mk l) "/" = true
    · rw [if_pos hsw] at h
      have hpref : ("/" : String).data <+: l := List.isPrefixOf_iff_prefix.mp hsw
      rcases hpref with ⟨t, ht⟩
      have ht0 : l.drop 1 = [] := by
        have hd := congrArg String.data h
        exact hd
      have hl : l = '/' :: t := by
        rw [← ht]
        rfl
      have htnil : t = [] := by
        rw [hl] at ht0
        simpa using ht0
      left
      rw [hl, htnil]
    · rw [if_neg hsw] at h
      right
      exact h

/-- Witness for C9: a concrete GET on the root path gets the welcome
response. -/
theorem welcome_route_witness :
    handle_request
      ⟨fun _ => .error "unused", fun _ => some "unused", fun _ => .error "unused"⟩
      ⟨8080, [], false, false, "0.0.0.0"⟩
      ⟨"GET", "/", none, [], .ok []⟩ =
      ⟨success_response "Holy CORS! Proxy is running. Usage: /\x7bTARGET_URL\x7d", .welcome⟩ := by
  exact (welcome_route
    ⟨fun _ => .error "unused", fun _ => some "unused", fun _ => .error "unused"⟩
    ⟨8080, [], false, false, "0.0.0.0"⟩
    ⟨"GET", "/", none, [], .ok []⟩ ""
    rfl (by rfl) (by decide) (Or.inl rfl)).1

/-- C10: origin validation precedes everything else. Whatever the
method, path, query, body and oracles, a request carrying a readable
but disallowed Origin header is answered by the origin-error branch
with the 403 error response - never by the preflight, welcome or any
later branch. -/
theorem origin_check_first (oracles : Oracles) (config : Config) (req : Req)
    (v : HVal) (s : String)
    (hv : hmGet req.headers "origin" = some v)
    (hs : hvalToStr v = some s)
    (hdis : config.is_origin_allowed s = false) :
    handle_request oracles config req =
      ⟨error_response 403
        ("Origin '" ++ s ++ "' is not allowed. Use --allow-origin to add it."),
       .originErr⟩
    ∧ (handle_request oracles config req).resp.status = 403
    ∧ (handle_request oracles config req).tag = .originErr
    ∧ (handle_request oracles config req).resp.status ≠ 204
    ∧ (handle_request oracles config req).resp.status ≠ 200 := by
  have hchk : check_origin req.headers config = .error (error_response 403
      ("Origin '" ++ s ++ "' is not allowed. Use --allow-origin to add it.")) := by
    simp only [check_origin, hv, hs]
    rw [if_neg (by simp [hdis])]
  have hmain : handle_request oracles config req =
      ⟨error_response 403
        ("Origin '" ++ s ++ "' is not allowed. Use --allow-origin to add it."),
       .originErr⟩ := by
    simp only [handle_request, hchk]
  refine ⟨hmain, by rw [hmain]; rfl, by rw [hmain], ?_, ?_⟩
  · rw [hmain]
    show (403 : Nat) ≠ 204
    decide
  · rw [hmain]
    show (403 : Nat) ≠ 200
    decide

/-- Witness for C10: an OPTIONS preflight on the root path from a
disallowed origin is answered 403, not 204 and not the welcome
message. -/
theorem origin_check_first_witness :
    (handle_request
      ⟨fun _ => .error "unused", fun _ => some "unused", fun _ => .error "unused"⟩
      ⟨8080, [], false, false, "0.0.0.0"⟩
      ⟨"OPTIONS", "/", none,
        [("origin", asciiBytes "https://evil.example"),
         ("access-control-request-method", asciiBytes "GET")], .ok []⟩).resp.status = 403 := by
  exact (origin_check_first
    ⟨fun _ => .error "unused", fun _ => some "unused", fun _ => .error "unused"⟩
    ⟨8080, [], false, false, "0.0.0.0"⟩
    ⟨"OPTIONS", "/", none,
      [("origin", asciiBytes "https://evil.example"),
       ("access-control-request-method", asciiBytes "GET")], .ok []⟩
    (asciiBytes "https://evil.example") "https://evil.example"
    (by decide) (by decide) (by decide)).2.1

/-- C8: for a request whose Upgrade header equals websocket ignoring
case and whose target resolves and parses with an http or https
scheme, handle_request hands the request to the WebSocket stub; the
stub consults the handshake exactly at the scheme-translated target
URL, answers 502 with the connection error on handshake failure and
501 on handshake success, never a 101 upgrade; http becomes ws and
https becomes wss on concrete targets. -/
theorem websocket_stub (oracles : Oracles) (config : Config) (req : Req)
    (origin target scheme : String)
    (hchk : check_origin req.headers config = .ok origin)
    (hpre : is_preflight req.method req.headers = false)
    (hpath : ¬(req.path = "/" ∨ req.path = ""))
    (hex : extract_target_url req.path req.query = some target)
    (hparse : oracles.urlParse target = .ok scheme)
    (hscheme : scheme = "http" ∨ scheme = "https")
    (hws : is_websocket_upgrade req.headers = true) :
    handle_request oracles config req = ⟨handle_websocket oracles target, .websocketT⟩
    ∧ (∀ e, oracles.wsErr (wsTranslate target) = some e →
        handle_websocket oracles target =
          error_response 502 ("Failed to connect to WebSocket: " ++ e))
    ∧ (oracles.wsErr (wsTranslate target) = none →
        handle_websocket oracles target =
          error_response 501
            "WebSocket proxying requires connection hijacking. Use a direct WebSocket connection.")
    ∧ ((handle_websocket oracles target).status = 501 ∨
       (handle_websocket oracles target).status = 502)
    ∧ (handle_websocket oracles target).status ≠ 101
    ∧ wsTranslate "http://example.com/a" = "ws://example.com/a"
    ∧ wsTranslate "https://example.com/a" = "wss://example.com/a" := by
  have hmain : handle_request oracles config req =
      ⟨handle_websocket oracles target, .websocketT⟩ := by
    simp only [handle_request, hchk, hpre, Bool.false_eq_true, if_false, if_neg hpath,
      hex, hparse, if_pos hscheme, hws, if_true]
  refine ⟨hmain, ?_, ?_, ?_, ?_, by decide, by decide⟩
  · intro e he
    simp only [handle_websocket, he]
  · intro he
    simp only [handle_websocket, he]
  · cases he : oracles.wsErr (wsTranslate target) with
    | some e => right; simp [handle_websocket, he, error_response]
    | none => left; simp [handle_websocket, he, error_response]
  · cases he : oracles.wsErr (wsTranslate target) with
    | some e => simp [handle_websocket, he, error_response]
    | none => simp [handle_websocket, he, error_response]

/-- Witness for C8: a concrete upgrade request is answered 501 by the
stub when the handshake oracle succeeds. -/
theorem websocket_stub_witness :
    handle_request
      ⟨fun _ => .ok "https", fun _ => none, fun _ => .error "unused"⟩
      ⟨8080, [], false, false, "0.0.0.0"⟩
      ⟨"GET", "/https://example.com/a", none,
        [("upgrade", asciiBytes "websocket")], .ok []⟩ =
      ⟨handle_websocket
        ⟨fun _ => .ok "https", fun _ => none, fun _ => .error "unused"⟩
        "https://example.com/a", .websocketT⟩ ∧
    (handle_websocket
      ⟨fun _ => .ok "https", fun _ => none, fun _ => .error "unused"⟩
      "https://example.com/a").status = 501 := by
  have h := websocket_stub
    ⟨fun _ => .ok "https", fun _ => none, fun _ => .error "unused"⟩
    ⟨8080, [], false, false, "0.0.0.0"⟩
    ⟨"GET", "/https://example.com/a", none,
      [("upgrade", asciiBytes "websocket")], .ok []⟩
    "" "https://example.com/a" "https"
    (by rfl) (by decide) (by decide) (by decide) rfl (Or.inr rfl) (by decide)
  refine ⟨h.1, ?_⟩
  rw [h.2.2.1 rfl]
  rfl

/-- C6 counterexample: for the target URL that spells out the default
https port, the code builds Host example.com:443 - the port is
appended because it is explicitly present, even though it is the
default - while the claim (port appended only if non-default) would
build a bare example.com. -/
theorem host_header_claim_counterexample :
    uriHostPort "https://example.com:443/x" = some ("example.com", some 443)
    ∧ hostHeaderValue "example.com" (some 443) = "example.com:443"
    ∧ claimedHostHeaderValue "https" "example.com" (some 443) = "example.com"
    ∧ hostHeaderValue "example.com" (some 443) ≠
        claimedHostHeaderValue "https" "example.com" (some 443) := by
  refine ⟨by decide, by decide, by decide, by decide⟩

/-- C6 (amended): building the outbound headers keeps exactly the
inbound headers whose lowercased name is outside the nine-entry
hop-by-hop list, each with its original value, and drops the listed
ones; the Host header is always set to the resolved target host, with
the port appended exactly when the parsed target URI carries an
explicit port (http::Uri keeps explicit default ports, so a spelled
out default port is appended too). -/
theorem outbound_header_spec :
    (∀ (hs : HeaderMap) host port n v, (n, v) ∈ hs →
        HOP_BY_HOP_HEADERS.contains (strToLower n) = false →
        (n, v) ∈ buildOutboundHeaders hs host port)
    ∧ (∀ (hs : HeaderMap) host port n v, (n, v) ∈ buildOutboundHeaders hs host port →
        (n = "host" ∧ v = asciiBytes (hostHeaderValue host port)) ∨
        ((n, v) ∈ hs ∧ HOP_BY_HOP_HEADERS.contains (strToLower n) = false))
    ∧ (∀ (hs : HeaderMap) host port, hmGet (buildOutboundHeaders hs host port) "host" =
        some (asciiBytes (hostHeaderValue host port)))
    ∧ (∀ (hs : HeaderMap) n, HOP_BY_HOP_HEADERS.contains (strToLower n) = true →
        hmGet (filterHop hs) n = none)
    ∧ (∀ host p, hostHeaderValue host (some p) = host ++ ":" ++ toString p)
    ∧ (∀ host, hostHeaderValue host none = host) := by
  refine ⟨?_, ?_, ?_, ?_, fun host p => rfl, fun host => rfl⟩
  · intro hs host port n v hmem hhop
    unfold buildOutboundHeaders
    apply List.mem_append_left
    refine List.mem_filter.mpr ⟨hmem, ?_⟩
    exact (Bool.not_eq_true' _) ▸ hhop
  · intro hs host port n v hmem
    unfold buildOutboundHeaders at hmem
    rcases List.mem_append.mp hmem with hfil | hhost
    · have := List.mem_filter.mp hfil
      right
      refine ⟨this.1, ?_⟩
      have h2 := this.2
      simpa using h2
    · left
      have : (n, v) = ("host", asciiBytes (hostHeaderValue host port)) := by
        simpa using hhost
      exact ⟨congrArg Prod.fst this, congrArg Prod.snd this⟩
  · intro hs host port
    unfold buildOutboundHeaders hmGet
    rw [List.find?_append]
    have hnone : List.find? (fun p => p.1 == "host") (filterHop hs) = none := by
      rw [List.find?_eq_none]
      intro x hx
      have hkeep := (List.mem_filter.mp hx).2
      intro hbeq
      have hx1 : x.1 = "host" := by simpa using hbeq
      rw [hx1] at hkeep
      have : strToLower "host" = "host" := by decide
      rw [this] at hkeep
      simp [HOP_BY_HOP_HEADERS] at hkeep
    rw [hnone]
    simp
  · intro hs n hhop
    unfold hmGet
    have hnone : List.find? (fun p => p.1 == n) (filterHop hs) = none := by
      rw [List.find?_eq_none]
      intro x hx
      have hkeep := (List.mem_filter.mp hx).2
      intro hbeq
      have hx1 : x.1 = n := by simpa using hbeq
      rw [hx1, hhop] at hkeep
      simp at hkeep
    rw [hnone]

/-- Witness for C6 (amended): on a concrete header set, Connection and
Host are dropped, X-Custom survives with its value, and the Host
header carries the target host. -/
theorem outbound_header_spec_witness :
    ("x-custom", asciiBytes "ValueKept") ∈
      buildOutboundHeaders
        [("connection", asciiBytes "keep-alive"), ("host", asciiBytes "proxy.local"),
         ("x-custom", asciiBytes "ValueKept")] "example.com" none
    ∧ hmGet (buildOutboundHeaders
        [("connection", asciiBytes "keep-alive"), ("host", asciiBytes "proxy.local"),
         ("x-custom", asciiBytes "ValueKept")] "example.com" none) "host" =
        some (asciiBytes "example.com")
    ∧ hmGet (filterHop
        [("connection", asciiBytes "keep-alive"), ("host", asciiBytes "proxy.local"),
         ("x-custom", asciiBytes "ValueKept")]) "connection" = none := by
  refine ⟨?_, ?_, ?_⟩
  · exact outbound_header_spec.1
      [("connection", asciiBytes "keep-alive"), ("host", asciiBytes "proxy.local"),
       ("x-custom", asciiBytes "ValueKept")] "example.com" none
      "x-custom" (asciiBytes "ValueKept") (by decide) (by decide)
  · exact outbound_header_spec.2.2.1
      [("connection", asciiBytes "keep-alive"), ("host", asciiBytes "proxy.local"),
       ("x-custom", asciiBytes "ValueKept")] "example.com" none
  · exact outbound_header_spec.2.2.2.1
      [("connection", asciiBytes "keep-alive"), ("host", asciiBytes "proxy.local"),
       ("x-custom", asciiBytes "ValueKept")] "connection" (by decide)

theorem jsonStringRestF_safe (m : List Char) : ∀ fuel r, m.length < fuel →
    (∀ c ∈ m, jsonSafeChar c = true) →
    jsonStringRestF fuel (m ++ '"' :: r) = some (m, r) := by
  induction m with
  | nil =>
    intro fuel r hf _
    cases fuel with
    | zero => omega
    | succ f =>
      rw [jsonStringRestF.eq_def]
      simp
  | cons c t ih =>
    intro fuel r hf h
    cases fuel with
    | zero =>
      simp only [List.length_cons] at hf
      omega
    | succ f =>
      have hc := h c (List.mem_cons_self c t)
      simp only [jsonSafeChar, Bool.and_eq_true, Bool.not_eq_true',
        decide_eq_true_eq, decide_eq_false_iff_not] at hc
      obtain ⟨⟨h1, h2⟩, h3⟩ := hc
      have hflt : t.length < f := by
        simp only [List.length_cons] at hf
        omega
      rw [List.cons_append, jsonStringRestF.eq_def]
      simp only [if_neg h1, if_neg h2]
      rw [if_neg (by omega : ¬ c.toNat < 32)]
      rw [ih f r hflt (fun x hx => h x (List.mem_cons_of_mem c hx))]
      rfl

theorem jsonStringRest_safe (m r : List Char)
    (h : ∀ c ∈ m, jsonSafeChar c = true) :
    jsonStringRest (m ++ '"' :: r) = some (m, r) := by
  unfold jsonStringRest
  apply jsonStringRestF_safe m _ r _ h
  rw [List.length_append]
  simp only [List.length_cons]
  omega

/-- The error body template parses back to the message whenever the
message interpolates safely. -/
theorem parseErrorBody_template (st : Nat) (msg : String) (h : jsonSafe msg = true) :
    parseErrorBody (error_response st msg).body = some msg := by
  have hdata : (error_response st msg).body.data =
      lbrace :: '"' :: 'e' :: 'r' :: 'r' :: 'o' :: 'r' :: '"' :: ':' :: ' ' :: '"' ::
        (msg.data ++ ['"', rbrace]) := by
    show ("\x7b\"error\": \"" ++ msg ++ "\"\x7d").data = _
    rw [String.data_append, String.data_append, List.append_assoc]
    rfl
  have hkey : jsonStringRest ('e' :: 'r' :: 'r' :: 'o' :: 'r' :: '"' ::
      (':' :: ' ' :: '"' :: (msg.data ++ ['"', rbrace]))) =
      some ("error".data, ':' :: ' ' :: '"' :: (msg.data ++ ['"', rbrace])) :=
    jsonStringRest_safe "error".data
      (':' :: ' ' :: '"' :: (msg.data ++ ['"', rbrace])) (by decide)
  have hmsg : jsonStringRest (msg.data ++ ['"', rbrace]) = some (msg.data, [rbrace]) :=
    jsonStringRest_safe msg.data [rbrace] (fun c hc => List.all_eq_true.mp h c hc)
  have hws1 : jsonWs lbrace = false := by decide
  have hws2 : jsonWs '"' = false := by decide
  have hws3 : jsonWs ':' = false := by decide
  have hws4 : jsonWs ' ' = true := by decide
  have hws5 : jsonWs rbrace = false := by decide
  have hwse : jsonWs 'e' = false := by decide
  unfold parseErrorBody
  rw [hdata]
  simp [expectChar, Option.bind, List.dropWhile_cons, hws1, hws2, hws3, hws4, hws5,
    hkey, hmsg]

/-- C7 counterexample: a readable Origin header value containing a
double quote is disallowed under the default configuration; the 403
error response interpolates it verbatim, and the resulting body is not
well-formed JSON of the error shape (the quote terminates the string
early). -/
theorem error_body_claim_counterexample :
    check_origin [("origin", asciiBytes "x\"y")] ⟨8080, [], false, false, "0.0.0.0"⟩ =
      .error (error_response 403
        "Origin 'x\"y' is not allowed. Use --allow-origin to add it.")
    ∧ parseErrorBody (error_response 403
        "Origin 'x\"y' is not allowed. Use --allow-origin to add it.").body = none := by
  constructor
  · rfl
  · decide

/-- C7 (amended): every error response carries its status, the body
obtained by interpolating the message verbatim into the error
template, plus Access-Control-Allow-Origin * and
Access-Control-Allow-Methods. Avoiding quotes, backslashes and
control characters in the message suffices for the body to be
well-formed JSON of the error shape parsing back to the message; it
is not necessary - a backslash that happens to start a valid JSON
escape still parses, though to a different message, as the concrete
backslash-b conjunct shows - while a quoted offending origin yields a
malformed body. An unreadable Origin header maps to 400, a disallowed
origin to 403 with a message containing the offending origin and the
allow-origin hint, target resolution and URL parse failures to 400,
and upstream connection failures to 502. -/
theorem error_responses_spec :
    (∀ st msg, (error_response st msg).status = st
      ∧ (error_response st msg).body = "\x7b\"error\": \"" ++ msg ++ "\"\x7d"
      ∧ hmGet (error_response st msg).headers "access-control-allow-origin" =
          some (asciiBytes "*")
      ∧ hmGet (error_response st msg).headers "access-control-allow-methods" =
          some (asciiBytes CORS_METHODS))
    ∧ (∀ st msg, jsonSafe msg = true →
        parseErrorBody (error_response st msg).body = some msg)
    ∧ (jsonSafe "Origin 'a\\b' is not allowed. Use --allow-origin to add it." = false
      ∧ parseErrorBody (error_response 403
          "Origin 'a\\b' is not allowed. Use --allow-origin to add it.").body =
          some "Origin 'a\x08' is not allowed. Use --allow-origin to add it."
      ∧ ("Origin 'a\x08' is not allowed. Use --allow-origin to add it." : String) ≠
          "Origin 'a\\b' is not allowed. Use --allow-origin to add it.")
    ∧ (∀ headers config v, hmGet headers "origin" = some v → hvalToStr v = none →
        check_origin headers config =
          .error (error_response 400 "Invalid Origin header"))
    ∧ (∀ headers config v s, hmGet headers "origin" = some v → hvalToStr v = some s →
        config.is_origin_allowed s = false →
        check_origin headers config = .error (error_response 403
          ("Origin '" ++ s ++ "' is not allowed. Use --allow-origin to add it."))
        ∧ s.data <:+:
            ("Origin '" ++ s ++ "' is not allowed. Use --allow-origin to add it.").data
        ∧ ("--allow-origin" : String).data <:+:
            ("Origin '" ++ s ++ "' is not allowed. Use --allow-origin to add it.").data)
    ∧ (∀ oracles config (req : Req) origin,
        check_origin req.headers config = .ok origin →
        is_preflight req.method req.headers = false →
        ¬(req.path = "/" ∨ req.path = "") →
        (extract_target_url req.path req.query = none →
          handle_request oracles config req =
            ⟨error_response 400 "Invalid target URL", .invalidTarget⟩)
        ∧ (∀ target e, extract_target_url req.path req.query = some target →
            oracles.urlParse target = .error e →
            handle_request oracles config req =
              ⟨error_response 400 ("Invalid URL: " ++ e), .badUrl⟩))
    ∧ (∀ oracles (req : Req) target origin host port bs e,
        uriHostPort target = some (host, port) →
        req.body = .ok bs →
        oracles.upstream
          { method := req.method, uri := target,
            headers := buildOutboundHeaders req.headers host port, body := bs } = .error e →
        forward_request oracles req target origin =
          error_response 502 ("Failed to reach target: " ++ e)) := by
  refine ⟨?_, ?_, ?_, ?_, ?_, ?_, ?_⟩
  · intro st msg
    exact ⟨rfl, rfl, rfl, rfl⟩
  · intro st msg h
    exact parseErrorBody_template st msg h
  · exact ⟨by decide, by decide, by decide⟩
  · intro headers config v hv hbad
    simp only [check_origin, hv, hbad]
  · intro headers config v s hv hs hdis
    refine ⟨?_, ?_, ?_⟩
    · simp only [check_origin, hv, hs]
      rw [if_neg (by simp [hdis])]
    · have hd : ("Origin '" ++ s ++ "' is not allowed. Use --allow-origin to add it.").data =
          ("Origin '" : String).data ++ s.data ++
            ("' is not allowed. Use --allow-origin to add it." : String).data := by
        rw [String.data_append, String.data_append]
      rw [hd]
      exact List.infix_append _ _ _
    · refine ⟨("Origin '" ++ s ++ "' is not allowed. Use " : String).data,
        (" to add it." : String).data, ?_⟩
      have hsuf : ("' is not allowed. Use " : String).data ++
          (("--allow-origin" : String).data ++ (" to add it." : String).data) =
          ("' is not allowed. Use --allow-origin to add it." : String).data := by decide
      simp only [String.data_append, List.append_assoc]
      rw [hsuf]
  · intro oracles config req origin hchk hpre hpath
    constructor
    · intro hext
      simp only [handle_request, hchk, hpre, Bool.false_eq_true, if_false,
        if_neg hpath, hext]
    · intro target e hext hurl
      simp only [handle_request, hchk, hpre, Bool.false_eq_true, if_false,
        if_neg hpath, hext, hurl]
  · intro oracles req target origin host port bs e huri hbody hup
    simp only [forward_request, huri, hbody, hup]

/-- Witness for C7 (amended): a safe message round-trips through the
body template; a concrete undecodable target yields the 400 response;
a concrete upstream failure yields the 502 response. -/
theorem error_responses_spec_witness :
    parseErrorBody (error_response 400 "Invalid target URL").body =
      some "Invalid target URL"
    ∧ handle_request
        ⟨fun _ => .error "unused", fun _ => some "unused", fun _ => .error "unused"⟩
        ⟨8080, [], false, false, "0.0.0.0"⟩
        ⟨"GET", "/nodomain", none, [], .ok []⟩ =
        ⟨error_response 400 "Invalid target URL", .invalidTarget⟩
    ∧ forward_request
        ⟨fun _ => .ok "https", fun _ => none, fun _ => .error "boom"⟩
        ⟨"GET", "/example.com", none, [], .ok []⟩
        "https://example.com" "" =
        error_response 502 ("Failed to reach target: " ++ "boom") := by
  refine ⟨?_, ?_, ?_⟩
  · exact error_responses_spec.2.1 400 "Invalid target URL" (by decide)
  · exact (error_responses_spec.2.2.2.2.2.1
      ⟨fun _ => .error "unused", fun _ => some "unused", fun _ => .error "unused"⟩
      ⟨8080, [], false, false, "0.0.0.0"⟩
      ⟨"GET", "/nodomain", none, [], .ok []⟩ ""
      (by rfl) (by decide) (by decide)).1 (by decide)
  · exact error_responses_spec.2.2.2.2.2.2
      ⟨fun _ => .ok "https", fun _ => none, fun _ => .error "boom"⟩
      ⟨"GET", "/example.com", none, [], .ok []⟩
      "https://example.com" "" "example.com" none [] "boom"
      (by decide) rfl rfl

end HolyCors
